import Mathlib

/-!
Verification development for the build-report aggregator
(`.github/scripts/update_readme.py`).

The Python source is shallowly embedded below.  External collaborators are
modelled explicitly:

* the HTTP service used by `check_cran_archived` / `get_bbs_status` is an
  oracle `Nat → HttpResult` giving the outcome of the n-th request issued
  by one lookup (a response with a status code and an optionally decodable
  body, or a raised network exception);
* Python's `re.findall` on the nine classifier patterns is implemented by a
  small backtracking matcher (`reMatches` / `findall`) covering exactly the
  constructs those patterns use (literals, character classes, `.`, `\s`,
  `\d`, greedy `?`/`+`/`*`, lazy `*?`, alternation, one capture group),
  with `re.IGNORECASE` baked into element matching;
* the filesystem of one run is a `RunInputs` record, and the run cache a
  `Cache` record; `mainPass` is the body of `main` up to rendering.
-/

/-! ## Python string helpers -/

/-- Whitespace recognised by Python's `str.strip()` (ASCII subset). -/
def pyIsSpace (c : Char) : Bool :=
  c == ' ' || c == '\t' || c == '\n' || c == '\r' || c == '\x0b' || c == '\x0c'

/-- Python `str.strip()`: drop leading and trailing whitespace. -/
def pyStrip (s : String) : String :=
  String.mk (((s.data.dropWhile pyIsSpace).reverse.dropWhile pyIsSpace).reverse)

/-- Does the second list occur as an initial segment of the first? -/
def hasPrefixCL : List Char → List Char → Bool
  | _, [] => true
  | [], _ :: _ => false
  | c :: cs, d :: ds => c == d && hasPrefixCL cs ds

/-- Index of the first occurrence of `pat` in `s` (Python `str.find`,
restricted to the found case). -/
def findSubIdx : List Char → List Char → Option Nat
  | s, pat =>
    if hasPrefixCL s pat then some 0
    else
      match s with
      | [] => none
      | _ :: t => (findSubIdx t pat).map (· + 1)

/-- Python's `needle in hay` on strings. -/
def strContains (hay needle : String) : Bool :=
  (findSubIdx hay.data needle.data).isSome

/-- Python `str.startswith`. -/
def strStartsWith (s pre : String) : Bool :=
  hasPrefixCL s.data pre.data

/-- Code-point lexicographic `≤` on char lists (Python string comparison). -/
def charListLe : List Char → List Char → Bool
  | [], _ => true
  | _ :: _, [] => false
  | a :: as, b :: bs =>
    if a.val < b.val then true
    else if b.val < a.val then false
    else charListLe as bs

/-- Python `<=` on strings. -/
def strLeB (a b : String) : Bool := charListLe a.data b.data

/-- Insert a string into a sorted list (helper for `sortStrings`). -/
def insertStr (x : String) : List String → List String
  | [] => [x]
  | y :: ys => if strLeB x y then x :: y :: ys else y :: insertStr x ys

/-- Python `sorted` on a list of strings (insertion sort). -/
def sortStrings (l : List String) : List String := l.foldr insertStr []

/-- Python `s.split(sep, 1)[1]` for a single-char separator that is known to
occur: everything after the first occurrence ("" when absent). -/
def afterFirstColon (s : String) : String :=
  String.mk ((s.data.dropWhile (fun c => !(c == ':'))).drop 1)

/-- Python `text[i:].split(sep)[0]` for `sep = '\n'`: the rest of the line
starting at index `i`. -/
def lineFromIdx (s : String) (i : Nat) : String :=
  String.mk ((s.data.drop i).takeWhile (fun c => !(c == '\n')))

/-- Helper of `splitOnChar`: `acc` holds the current piece reversed. -/
def splitOnCharAux (sep : Char) : List Char → List Char → List String
  | [], acc => [String.mk acc.reverse]
  | c :: rest, acc =>
    if c == sep then String.mk acc.reverse :: splitOnCharAux sep rest []
    else splitOnCharAux sep rest (c :: acc)

/-- Python `str.split(sep)` for a one-character separator
(`"".split(sep) = [""]`, like Python). -/
def splitOnChar (sep : Char) (s : String) : List String :=
  splitOnCharAux sep s.data []

/-- Python `str.lower()` (character-wise; all text involved is ASCII). -/
def strToLower (s : String) : String :=
  String.mk (s.data.map Char.toLower)

/-! ## Regex engine

A backtracking matcher for the subset of Python `re` used by
`check_failure_reason`.  Every quantifier in the nine source patterns
applies to a single one-character element, and each pattern has exactly one
capture group, of the shape `([^...]+)`; the engine hard-codes these two
facts.  Alternatives are produced in Python's backtracking priority order,
so the head of `reMatches` is exactly the match Python's engine returns. -/

/-- One-character regex elements. -/
inductive RElem where
  | lit (c : Char)
  | anyChar
  | ws
  | digit
  | oneOf (cs : List Char)
  | noneOf (cs : List Char)
deriving DecidableEq

/-- Does element `e` match character `x`?  `re.IGNORECASE` is always in
force in the source (`re.IGNORECASE | re.MULTILINE`; no pattern contains
`^`/`$`, so `MULTILINE` is inert); the character classes of the source
patterns contain no cased letters, so folding is only applied to literals. -/
def elemMatch : RElem → Char → Bool
  | .lit c, x => x.toLower == c.toLower
  | .anyChar, x => !(x == '\n')
  | .ws, x => pyIsSpace x
  | .digit, x => x.isDigit
  | .oneOf cs, x => cs.contains x
  | .noneOf cs, x => !(cs.contains x)

/-- Regexes: sequencing, alternation, quantified single elements, and one
capture group `(e+)`. -/
inductive RE where
  | eps
  | one (e : RElem)
  | seq (a b : RE)
  | alt (a b : RE)
  | rep (e : RElem) (lo : Nat) (hi : Option Nat) (lazy : Bool)
  | grpPlus (e : RElem)
deriving DecidableEq

/-- Length of the maximal run of characters matching `e` at the front. -/
def runLen (e : RElem) : List Char → Nat
  | [] => 0
  | c :: rest => if elemMatch e c then runLen e rest + 1 else 0

/-- `[m, m-1, ..., lo]` (empty when `lo > m`): greedy repetition counts. -/
def descRange (lo m : Nat) : List Nat :=
  (List.range (m + 1 - lo)).map (fun i => m - i)

/-- `[lo, lo+1, ..., m]` (empty when `lo > m`): lazy repetition counts. -/
def ascRange (lo m : Nat) : List Nat :=
  (List.range (m + 1 - lo)).map (fun i => lo + i)

/-- Candidate consumption counts for a quantifier, in priority order. -/
def repCounts (lo : Nat) (hi : Option Nat) (lazy : Bool) (maxRun : Nat) : List Nat :=
  let m := match hi with | some h => min h maxRun | none => maxRun
  if lazy then ascRange lo m else descRange lo m

/-- All ways to match `r` against a prefix of `s`, in Python's backtracking
priority order.  Each result is (capture so far, remaining input). -/
def reMatches : RE → List Char → Option String → List (Option String × List Char)
  | .eps, s, cap => [(cap, s)]
  | .one e, s, cap =>
    match s with
    | [] => []
    | c :: rest => if elemMatch e c then [(cap, rest)] else []
  | .seq a b, s, cap => (reMatches a s cap).flatMap (fun p => reMatches b p.2 p.1)
  | .alt a b, s, cap => reMatches a s cap ++ reMatches b s cap
  | .rep e lo hi lz, s, cap =>
    (repCounts lo hi lz (runLen e s)).map (fun n => (cap, s.drop n))
  | .grpPlus e, s, cap =>
    let _ := cap
    (descRange 1 (runLen e s)).map (fun n => (some (String.mk (s.take n)), s.drop n))

/-- The match Python's engine finds at the current position, if any:
the capture of group 1 and the input remaining after the match. -/
def tryAt (r : RE) (s : List Char) : Option (String × List Char) :=
  (reMatches r s none).head?.map (fun p => (p.1.getD "", p.2))

/-- Scanning loop of `re.findall` (fuel-indexed; `fuel = s.length + 1`
always suffices, and after a zero-width match the scan advances one
character, as in Python). -/
def findallAux (r : RE) : Nat → List Char → List String
  | 0, _ => []
  | fuel + 1, s =>
    match tryAt r s with
    | some (cap, rest) =>
      if rest.length < s.length then cap :: findallAux r fuel rest
      else
        match s with
        | [] => [cap]
        | _ :: t => cap :: findallAux r fuel t
    | none =>
      match s with
      | [] => []
      | _ :: t => findallAux r fuel t

/-- Python `re.findall(pattern, text, re.IGNORECASE | re.MULTILINE)` for a
pattern with exactly one capture group: the list of group-1 captures of the
non-overlapping matches, left to right. -/
def findall (r : RE) (s : String) : List String :=
  findallAux r (s.data.length + 1) s.data

/-- Sequence a list of regexes. -/
def reSeq (l : List RE) : RE := l.foldr RE.seq RE.eps

/-- Literal string as a regex. -/
def reLit (s : String) : RE := reSeq (s.data.map (fun c => RE.one (RElem.lit c)))

/-! ## The nine classifier patterns -/

/-- The quote characters of the source patterns:
`"`, `'`, and the four curly quotes. -/
def quoteChars : List Char := ['"', '\x27', '“', '”', '‘', '’']

/-- Pattern `there is no package called [Q]([^Q]+)[Q]`. -/
def pat1 : RE := reSeq
  [reLit "there is no package called ", RE.one (.oneOf quoteChars),
   RE.grpPlus (.noneOf quoteChars), RE.one (.oneOf quoteChars)]

/-- Pattern `ERROR: dependencies? [Q]([^Q]+)[Q] (?:is|are) not available`. -/
def pat2 : RE := reSeq
  [reLit "ERROR: dependencie", RE.rep (.lit 's') 0 (some 1) false, reLit " ",
   RE.one (.oneOf quoteChars), RE.grpPlus (.noneOf quoteChars),
   RE.one (.oneOf quoteChars), reLit " ",
   RE.alt (reLit "is") (reLit "are"), reLit " not available"]

/-- Pattern `ERROR: package [Q]([^Q]+)[Q] (?:is|was) not found`. -/
def pat3 : RE := reSeq
  [reLit "ERROR: package ", RE.one (.oneOf quoteChars),
   RE.grpPlus (.noneOf quoteChars), RE.one (.oneOf quoteChars), reLit " ",
   RE.alt (reLit "is") (reLit "was"), reLit " not found"]

/-- Pattern `ERROR: System command error.*?:\n\s*([^\n]+)`. -/
def pat4 : RE := reSeq
  [reLit "ERROR: System command error", RE.rep .anyChar 0 none true,
   reLit ":\n", RE.rep .ws 0 none false, RE.grpPlus (.noneOf ['\n'])]

/-- Pattern `Installation failed:[\r\n]+\s*([^\r\n]+)`. -/
def pat5 : RE := reSeq
  [reLit "Installation failed:", RE.rep (.oneOf ['\r', '\n']) 1 none false,
   RE.rep .ws 0 none false, RE.grpPlus (.noneOf ['\r', '\n'])]

/-- Pattern `error: command .*? failed with exit status \d+[\r\n]+\s*([^\r\n]+)`. -/
def pat6 : RE := reSeq
  [reLit "error: command ", RE.rep .anyChar 0 none true,
   reLit " failed with exit status ", RE.rep .digit 1 none false,
   RE.rep (.oneOf ['\r', '\n']) 1 none false, RE.rep .ws 0 none false,
   RE.grpPlus (.noneOf ['\r', '\n'])]

/-- Pattern `error: Error installing package.*?:\n\s*([^\n]+)`. -/
def pat7 : RE := reSeq
  [reLit "error: Error installing package", RE.rep .anyChar 0 none true,
   reLit ":\n", RE.rep .ws 0 none false, RE.grpPlus (.noneOf ['\n'])]

/-- Pattern `configure: error:.*?([^\n]+)`. -/
def pat8 : RE := reSeq
  [reLit "configure: error:", RE.rep .anyChar 0 none true,
   RE.grpPlus (.noneOf ['\n'])]

/-- Pattern `ERROR:\s+compilation failed for package.*?([^\n]+)`. -/
def pat9 : RE := reSeq
  [reLit "ERROR:", RE.rep .ws 1 none false,
   reLit "compilation failed for package", RE.rep .anyChar 0 none true,
   RE.grpPlus (.noneOf ['\n'])]

/-- The fixed, ordered rule list of `check_failure_reason`. -/
def patterns : List (RE × String) :=
  [(pat1, "Missing R dependency"),
   (pat2, "Missing dependency"),
   (pat3, "Package not found"),
   (pat4, "System command failed"),
   (pat5, "Installation failed"),
   (pat6, "Command error"),
   (pat7, "Installation error"),
   (pat8, "Configure error"),
   (pat9, "Compilation failed")]

/-! ## FailureClassifier: `check_failure_reason` -/

/-- Is the current rule's category about a dependency or a package
(the source: `any(x in msg.lower() for x in ["dependency", "package"])`)? -/
def containsDepOrPkg (msg : String) : Bool :=
  strContains (strToLower msg) "dependency" || strContains (strToLower msg) "package"

/-- The fixed keyword list of the fallback scan. -/
def errorKeywords : List String :=
  ["error:", "Error:", "ERROR:",
   "failed", "Failed", "FAILED",
   "cannot find", "not found",
   "could not", "unable to"]

/-- The first line of the log containing one of the keywords (as a
substring, case-sensitively), stripped — the source's fallback loop. -/
def firstKeywordLine (log_content : String) : Option String :=
  ((splitOnChar '\n' log_content).find?
    (fun line => errorKeywords.any (fun kw => strContains line kw))).map pyStrip

/-- `check_failure_reason(log_content)`.  The CRAN archival lookup it makes
for dependency/package categories is abstracted by the oracle
`arch : String → Option String` (the value `check_cran_archived` returns
for that name during this invocation). -/
def check_failure_reason (arch : String → Option String) (log_content : String) :
    List String :=
  let reasons := patterns.flatMap (fun p =>
    (findall p.1 log_content).flatMap (fun m =>
      let reason := p.2 ++ ": " ++ m
      if containsDepOrPkg p.2 then
        match arch (pyStrip m) with
        | some archived => [reason, archived]
        | none => [reason]
      else [reason]))
  if reasons = [] then
    match firstKeywordLine log_content with
    | some line => [line]
    | none => ["Build failed with unknown error"]
  else reasons

/-- The arguments of the `check_cran_archived` calls one
`check_failure_reason(log)` invocation performs, in call order: one call
per match of a rule whose category mentions a dependency or package,
with the stripped captured excerpt (the call happens whatever it returns). -/
def cranCallsOfLog (log_content : String) : List String :=
  patterns.flatMap (fun p =>
    (findall p.1 log_content).flatMap (fun m =>
      if containsDepOrPkg p.2 then [pyStrip m] else []))

/-! ## RegistryStatusResolver: HTTP model and the two lookups -/

/-- Outcome of one `requests.get`: a raised `RequestException`, or a
response with a status code and a body; `body = none` means
`r.content.decode("utf-8")` raises `UnicodeDecodeError`. -/
inductive HttpResult where
  | exn : HttpResult
  | ok (status : Nat) (body : Option String) : HttpResult
deriving DecidableEq

/-- Result of the initial request plus the retry loop: either an exception
escaped to the enclosing `except` (with the number of requests issued so
far), or a final response.  The request count is carried for the resource
bound. -/
inductive FetchOutcome where
  | caught (reqs : Nat)
  | response (status : Nat) (body : Option String) (reqs : Nat)
deriving DecidableEq

/-- The retry loop `while retries <= 5 and r.status_code != 200`, with
`remaining = 6 - retries` (the guard `retries <= 5` holds exactly when
`remaining > 0`, and the loop body runs at most six times).  `svc n` is the
outcome of request number `n`; `reqs` counts requests already issued. -/
def retryLoop (svc : Nat → HttpResult) :
    Nat → Option String → Nat → Nat → FetchOutcome
  | status, body, remaining, reqs =>
    if status = 200 then .response status body reqs
    else
      match remaining with
      | 0 => .response status body reqs
      | r + 1 =>
        match svc reqs with
        | .exn => .caught (reqs + 1)
        | .ok st b => retryLoop svc st b r (reqs + 1)

/-- The initial `requests.get` followed by the retry loop (shared by
`check_cran_archived` and `get_bbs_status`). -/
def fetchWithRetries (svc : Nat → HttpResult) : FetchOutcome :=
  match svc 0 with
  | .exn => .caught 1
  | .ok st b => retryLoop svc st b 6 1

/-- Number of HTTP requests a fetch issued. -/
def requestCount : FetchOutcome → Nat
  | .caught n => n
  | .response _ _ n => n

/-- The CRAN page URL of the source. -/
def cranUrlOf (pkg : String) : String :=
  "https://cran.r-project.org/web/packages/" ++ pkg ++ "/index.html"

/-- Body scan of `check_cran_archived` on a decoded page: first marker of
`["Archived on", "Removed on"]` present in the text wins, and the
annotation is built from the rest of that marker's line, lowercased. -/
def cranScan (pkg crantext : String) : Option String :=
  match findSubIdx crantext.data "Archived on".data with
  | some i =>
    some ("[CRAN Package \x27" ++ pkg ++ "\x27](" ++ cranUrlOf pkg ++ ") "
      ++ strToLower (lineFromIdx crantext i))
  | none =>
    match findSubIdx crantext.data "Removed on".data with
    | some i =>
      some ("[CRAN Package \x27" ++ pkg ++ "\x27](" ++ cranUrlOf pkg ++ ") "
        ++ strToLower (lineFromIdx crantext i))
    | none => none

/-- `check_cran_archived(pkg)` over the HTTP oracle `svc`.  Any raised
`RequestException`/`UnicodeDecodeError` is caught and yields `None`. -/
def check_cran_archived (svc : Nat → HttpResult) (pkg : String) : Option String :=
  match fetchWithRetries svc with
  | .caught _ => none
  | .response st body _ =>
    if st = 200 then
      match body with
      | none => none
      | some crantext => cranScan pkg crantext
    else none

/-- Requests issued by one `check_cran_archived` call: exactly those of its
single fetch-with-retries (the function performs no other request). -/
def cranRequestCount (svc : Nat → HttpResult) : Nat :=
  requestCount (fetchWithRetries svc)

/-- The BBS page URL of the source. -/
def bbsUrlOf (pkg bioc_version : String) : String :=
  "https://bioconductor.org/checkResults/" ++ bioc_version ++ "/bioc-LATEST/" ++ pkg

/-- `get_bbs_status(pkg, bioc_version)` over the HTTP oracle `svc`.  The
`Status:` line of the decoded summary yields a link; every failure path
(exception, non-success response after retries, undecodable body, no
`Status:` line) yields `"Not Found"`. -/
def get_bbs_status (svc : Nat → HttpResult) (pkg bioc_version : String) : String :=
  match fetchWithRetries svc with
  | .caught _ => "Not Found"
  | .response st body _ =>
    if st = 200 then
      match body with
      | none => "Not Found"
      | some bbs_summary =>
        match (splitOnChar '\n' bbs_summary).find? (fun line => strStartsWith line "Status:") with
        | some status_line =>
          "[" ++ pyStrip (afterFirstColon status_line) ++ "](" ++ bbsUrlOf pkg bioc_version ++ ")"
        | none => "Not Found"
    else "Not Found"

/-- Requests issued by one `get_bbs_status` call: exactly those of its
single fetch-with-retries. -/
def bbsRequestCount (svc : Nat → HttpResult) : Nat :=
  requestCount (fetchWithRetries svc)

/-- Can `check_cran_archived` produce an annotation from this service
behavior? (success response whose body decodes and contains a marker). -/
def cranAnnotatable (svc : Nat → HttpResult) : Bool :=
  match fetchWithRetries svc with
  | .caught _ => false
  | .response st body _ =>
    decide (st = 200) &&
      (match body with
       | none => false
       | some b => strContains b "Archived on" || strContains b "Removed on")

/-- Can `get_bbs_status` produce a status link from this service behavior?
(success response whose body decodes and has a `Status:` line). -/
def bbsStatusFindable (svc : Nat → HttpResult) : Bool :=
  match fetchWithRetries svc with
  | .caught _ => false
  | .response st body _ =>
    decide (st = 200) &&
      (match body with
       | none => false
       | some b => ((splitOnChar '\n' b).find? (fun line => strStartsWith line "Status:")).isSome)

/-! ## ReportAggregator: the body of `main` up to rendering

`RunInputs` models the run-scoped input artifacts; `Cache` the three cache
artifacts as loaded by `load_table_cache`.  The two resolver lookups are
abstracted by per-package oracles (`bbsO pkg` = what `get_bbs_status(pkg,
bioc_version)` returns in this pass, `archO name` = what
`check_cran_archived(name)` returns inside the classifier). -/

/-- Run-scoped input artifacts of one aggregator pass. -/
structure RunInputs where
  runId : String
  /-- the manifest `biocdeps.json` (list of package names) -/
  packages : List String
  /-- content of `CONTAINER_BASE_IMAGE.bioc` -/
  containerTag : String
  /-- lines of `logs/successful-packages.txt`; `none` = file absent -/
  successLines : Option (List String)
  /-- content of `logs/{pkg}/build-fail.log`; `none` = file absent -/
  failLogs : String → Option String

/-- The run cache: succeeded rows, failed rows, handled names (the
in-memory `cache` dict; each row is the list of its cells). -/
structure Cache where
  succeeded : List (List String)
  failed : List (List String)
  handled : List String
deriving DecidableEq

/-- `get_container_version`: strip the tag file, take the part after the
last `:`. -/
def biocVersion (inp : RunInputs) : String :=
  (splitOnChar ':' (pyStrip inp.containerTag)).getLastD ""

/-- The set `successful` (stripped nonempty lines; membership-only use). -/
def successSet (inp : RunInputs) : List String :=
  match inp.successLines with
  | none => []
  | some ls => (ls.map pyStrip).filter (fun l => !decide (l = ""))

/-- The set `failed`: manifest packages whose `build-fail.log` exists. -/
def failedSet (inp : RunInputs) : List String :=
  inp.packages.filter (fun p => (inp.failLogs p).isSome)

/-- Python set `add` on the handled-names list. -/
def setAdd (l : List String) (x : String) : List String :=
  if x ∈ l then l else l ++ [x]

/-- `sorted(new_packages)` with `new_packages = (successful | failed) -
handled`: the sorted duplicate-free list of unhandled current packages. -/
def newPackages (inp : RunInputs) (c : Cache) : List String :=
  sortStrings (((successSet inp ++ failedSet inp).filter
    (fun p => !decide (p ∈ c.handled))).dedup)

/-- The package page URL. -/
def pkgUrl (v pkg : String) : String :=
  "https://bioconductor.org/packages/" ++ v ++ "/bioc/html/" ++ pkg ++ ".html"

/-- The markdown package link heading every row built by the pass. -/
def pkgLink (v pkg : String) : String :=
  "[" ++ pkg ++ "](" ++ pkgUrl v pkg ++ ")"

/-- The succeeded-table row appended for a successful package. -/
def builtRow (inp : RunInputs) (bbsO : String → String) (pkg : String) : List String :=
  [pkgLink (biocVersion inp) pkg, "Built",
   "[Log](runs/" ++ inp.runId ++ "/logs/" ++ pkg ++ "/build-success.log)",
   bbsO pkg]

/-- The failed-table row appended for a failed package: its log is read and
classified, and the reasons joined with newlines. -/
def failedRow (inp : RunInputs) (bbsO : String → String)
    (archO : String → Option String) (pkg : String) : List String :=
  [pkgLink (biocVersion inp) pkg, "Failed",
   "[Log](runs/" ++ inp.runId ++ "/logs/" ++ pkg ++ "/build-fail.log)",
   bbsO pkg,
   String.intercalate "\n" (check_failure_reason archO ((inp.failLogs pkg).getD ""))]

/-- One iteration of the `for pkg in sorted(new_packages)` loop: the
success branch is tested first, the failure branch only on `elif`. -/
def processPkg (inp : RunInputs) (bbsO : String → String)
    (archO : String → Option String) (c : Cache) (pkg : String) : Cache :=
  if pkg ∈ successSet inp then
    { c with succeeded := c.succeeded ++ [builtRow inp bbsO pkg],
             handled := setAdd c.handled pkg }
  else if pkg ∈ failedSet inp then
    { c with failed := c.failed ++ [failedRow inp bbsO archO pkg],
             handled := setAdd c.handled pkg }
  else c

/-- The whole processing loop of `main`, returning the updated cache (the
state `save_table_cache` then rewrites in full). -/
def runPass (inp : RunInputs) (bbsO : String → String)
    (archO : String → Option String) (c : Cache) : Cache :=
  (newPackages inp c).foldl (processPkg inp bbsO archO) c

/-- The `unprocessed` table: manifest packages not in the final handled
set, in sorted order. -/
def unprocTable (inp : RunInputs) (c : Cache) : List (List String) :=
  ((sortStrings inp.packages).filter (fun p => !decide (p ∈ c.handled))).map
    (fun p => [pkgLink (biocVersion inp) p, "Unprocessed"])

/-- The three final tables of one pass. -/
structure PassResult where
  cache : Cache
  succeededTable : List (List String)
  failedTable : List (List String)
  unprocessedTable : List (List String)
deriving DecidableEq

/-- One aggregator pass (`main` up to README rendering): process the new
packages, save the cache, and build the three tables (succeeded and failed
straight from the cache, unprocessed from the manifest). -/
def mainPass (inp : RunInputs) (bbsO : String → String)
    (archO : String → Option String) (c0 : Cache) : PassResult :=
  let c := runPass inp bbsO archO c0
  ⟨c, c.succeeded, c.failed, unprocTable inp c⟩

/-! ### Call accounting

Which oracle calls one pass performs, read off the control flow of the
loop: `get_bbs_status` is called in both branches, `check_failure_reason`
only in the failure branch, and `check_cran_archived` only inside
`check_failure_reason`, at the stripped excerpts of dependency/package
rule matches (`cranCallsOfLog`). -/

/-- Packages whose failure log the pass reads and classifies
(`check_failure_reason` is invoked exactly for these). -/
def classifiedPkgs (inp : RunInputs) (c0 : Cache) : List String :=
  (newPackages inp c0).filter
    (fun p => !decide (p ∈ successSet inp) && decide (p ∈ failedSet inp))

/-- Packages for which the pass invokes `get_bbs_status`. -/
def bbsCalledPkgs (inp : RunInputs) (c0 : Cache) : List String :=
  (newPackages inp c0).filter
    (fun p => decide (p ∈ successSet inp) || decide (p ∈ failedSet inp))

/-- Names for which the pass invokes `check_cran_archived` (via the
classifier runs on the logs of the classified packages). -/
def cranCalledNames (inp : RunInputs) (c0 : Cache) : List String :=
  (classifiedPkgs inp c0).flatMap
    (fun p => cranCallsOfLog ((inp.failLogs p).getD ""))

/-- Rows in `rows` that are for package `name`: their first cell is the
package link the pass writes. -/
def rowCountFor (v : String) (rows : List (List String)) (name : String) : Nat :=
  rows.countP (fun r => r.head? == some (pkgLink v name))

/-- Cache well-formedness (spec §3: a name is in HandledSet iff exactly one
report row for it is cached). -/
def CacheWF (v : String) (c : Cache) : Prop :=
  ∀ name, rowCountFor v (c.succeeded ++ c.failed) name
    = if name ∈ c.handled then 1 else 0

/-! ## Concrete instances used by witnesses and counterexamples -/

/-- A run where the unhandled package `bar` failed with a log whose missing
dependency is the already-handled package `foo`. -/
def cexInp : RunInputs :=
  { runId := "1", packages := ["bar", "foo"], containerTag := "img:3.19",
    successLines := none,
    failLogs := fun p =>
      if p = "bar" then some "there is no package called \"foo\"" else none }

/-- A loaded cache in which `foo` is already handled (with its cached
failed row). -/
def cexC0 : Cache :=
  { succeeded := [],
    failed := [[pkgLink "3.19" "foo", "Failed", "[Log](l)", "Not Found", "r"]],
    handled := ["foo"] }

/-- A fixed build-status oracle for witnesses. -/
def wBbs : String → String := fun _ => "[OK](url)"

/-- A fixed archival oracle for witnesses. -/
def wArch : String → Option String := fun _ => none

/-- A two-package run: `alpha` succeeded, `beta` failed. -/
def wInp : RunInputs :=
  { runId := "7", packages := ["alpha", "beta"], containerTag := "img:3.19",
    successLines := some ["alpha"],
    failLogs := fun p => if p = "beta" then some "Error: boom" else none }

/-- The empty cache (trivially well-formed). -/
def emptyCache : Cache := { succeeded := [], failed := [], handled := [] }

/-- A run whose package `dual` is both in the success list and has a
failure log on disk. -/
def wInpDual : RunInputs :=
  { runId := "9", packages := ["dual"], containerTag := "img:3.19",
    successLines := some ["dual"],
    failLogs := fun p => if p = "dual" then some "Error: boom" else none }

/-- The rule-derived reasons list of `check_failure_reason` (the value of
its `reasons` variable right after the pattern loop): rules in list order,
matches of one rule in `findall` (text) order, and for dependency/package
categories the archival annotation right after its reason when the lookup
reports one. -/
def ruleReasons (arch : String → Option String) (log_content : String) : List String :=
  patterns.flatMap (fun p =>
    (findall p.1 log_content).flatMap (fun m =>
      let reason := p.2 ++ ": " ++ m
      if containsDepOrPkg p.2 then
        match arch (pyStrip m) with
        | some archived => [reason, archived]
        | none => [reason]
      else [reason]))

/-! ## Lemmas -/

theorem insertStr_perm (x : String) (l : List String) :
    (insertStr x l).Perm (x :: l) := by
  induction l with
  | nil => simp [insertStr]
  | cons y ys ih =>
    by_cases h : strLeB x y = true
    · simp [insertStr, h]
    · simp only [insertStr, h]
      exact ((ih.cons y).trans (List.Perm.swap x y ys))

theorem sortStrings_perm (l : List String) : (sortStrings l).Perm l := by
  induction l with
  | nil => simp [sortStrings]
  | cons x xs ih =>
    simpa [sortStrings] using (insertStr_perm x (sortStrings xs)).trans (ih.cons x)

theorem mem_sortStrings {a : String} {l : List String} :
    a ∈ sortStrings l ↔ a ∈ l :=
  (sortStrings_perm l).mem_iff

theorem sortStrings_nodup {l : List String} (h : l.Nodup) :
    (sortStrings l).Nodup :=
  ((sortStrings_perm l).nodup_iff).mpr h

theorem sortStrings_count (a : String) (l : List String) :
    List.count a (sortStrings l) = List.count a l :=
  (sortStrings_perm l).count_eq a

theorem sortStrings_nil : sortStrings [] = [] := rfl

theorem pkgLink_inj {v p q : String} (h : pkgLink v p = pkgLink v q) : p = q := by
  have hd := congrArg String.data h
  simp only [pkgLink, pkgUrl, String.data_append, List.append_assoc] at hd
  have hd' := List.append_cancel_left hd
  have hlen := congrArg List.length hd'
  simp only [List.length_append] at hlen
  have hpq : p.data.length = q.data.length := by omega
  exact String.ext (List.append_inj hd' hpq).1

theorem mem_newPackages {inp : RunInputs} {c : Cache} {p : String} :
    p ∈ newPackages inp c ↔
      (p ∈ successSet inp ∨ p ∈ failedSet inp) ∧ p ∉ c.handled := by
  simp only [newPackages, mem_sortStrings, List.mem_dedup, List.mem_filter,
    List.mem_append, Bool.not_eq_eq_eq_not, Bool.not_true, decide_eq_false_iff_not]

theorem newPackages_nodup (inp : RunInputs) (c : Cache) :
    (newPackages inp c).Nodup :=
  sortStrings_nodup (List.nodup_dedup _)

theorem newPackages_count_one {inp : RunInputs} {c : Cache} {p : String}
    (h : p ∈ newPackages inp c) : List.count p (newPackages inp c) = 1 :=
  List.count_eq_one_of_mem (newPackages_nodup inp c) h

theorem foldl_processPkg_succeeded (inp : RunInputs) (bbsO : String → String)
    (archO : String → Option String) :
    ∀ (l : List String) (c : Cache),
      (l.foldl (processPkg inp bbsO archO) c).succeeded
        = c.succeeded ++ (l.filter (fun p => decide (p ∈ successSet inp))).map
            (builtRow inp bbsO) := by
  intro l
  induction l with
  | nil => intro c; simp
  | cons p ps ih =>
    intro c
    by_cases hs : p ∈ successSet inp
    · simp [ih, List.filter_cons, hs, processPkg, List.append_assoc]
    · by_cases hf : p ∈ failedSet inp
      · simp [ih, List.filter_cons, hs, hf, processPkg]
      · simp [ih, List.filter_cons, hs, hf, processPkg]

theorem foldl_processPkg_failed (inp : RunInputs) (bbsO : String → String)
    (archO : String → Option String) :
    ∀ (l : List String) (c : Cache),
      (l.foldl (processPkg inp bbsO archO) c).failed
        = c.failed ++ (l.filter (fun p =>
            !decide (p ∈ successSet inp) && decide (p ∈ failedSet inp))).map
            (failedRow inp bbsO archO) := by
  intro l
  induction l with
  | nil => intro c; simp
  | cons p ps ih =>
    intro c
    by_cases hs : p ∈ successSet inp
    · simp [ih, List.filter_cons, hs, processPkg]
    · by_cases hf : p ∈ failedSet inp
      · simp [ih, List.filter_cons, hs, hf, processPkg, List.append_assoc]
      · simp [ih, List.filter_cons, hs, hf, processPkg]

theorem foldl_processPkg_handled_mono (inp : RunInputs) (bbsO : String → String)
    (archO : String → Option String) :
    ∀ (l : List String) (c : Cache) (q : String),
      q ∈ c.handled → q ∈ (l.foldl (processPkg inp bbsO archO) c).handled := by
  intro l
  induction l with
  | nil => intro c q h; simpa using h
  | cons p ps ih =>
    intro c q h
    refine List.foldl_cons ps c ▸ ih _ q ?_
    by_cases hs : p ∈ successSet inp
    · simp only [processPkg, if_pos hs, setAdd]
      split
      · exact h
      · exact List.mem_append_left _ h
    · by_cases hf : p ∈ failedSet inp
      · simp only [processPkg, if_neg hs, if_pos hf, setAdd]
        split
        · exact h
        · exact List.mem_append_left _ h
      · simpa [processPkg, hs, hf] using h

theorem foldl_processPkg_handled_adds (inp : RunInputs) (bbsO : String → String)
    (archO : String → Option String) :
    ∀ (l : List String) (c : Cache) (q : String),
      q ∈ l → (q ∈ successSet inp ∨ q ∈ failedSet inp) →
      q ∈ (l.foldl (processPkg inp bbsO archO) c).handled := by
  intro l
  induction l with
  | nil => intro c q h; simp at h
  | cons p ps ih =>
    intro c q hq hor
    rcases List.mem_cons.mp hq with rfl | hmem
    · refine List.foldl_cons ps c ▸
        foldl_processPkg_handled_mono inp bbsO archO ps _ q ?_
      have hadd : q ∈ setAdd c.handled q := by
        simp only [setAdd]
        split
        · assumption
        · simp
      rcases hor with hs | hf
      · simpa [processPkg, hs] using hadd
      · by_cases hs : q ∈ successSet inp
        · simpa [processPkg, hs] using hadd
        · simpa [processPkg, hs, hf] using hadd
    · exact List.foldl_cons ps c ▸ ih _ q hmem hor

theorem mem_setAdd {l : List String} {x q : String} :
    q ∈ setAdd l x ↔ q ∈ l ∨ q = x := by
  simp only [setAdd]
  split
  · rename_i hx
    constructor
    · exact Or.inl
    · rintro (h | rfl)
      · exact h
      · exact hx
  · simp

theorem rowCountFor_append (v : String) (a b : List (List String)) (n : String) :
    rowCountFor v (a ++ b) n = rowCountFor v a n + rowCountFor v b n :=
  List.countP_append _ a b

theorem rowCountFor_nil (v n : String) : rowCountFor v [] n = 0 := rfl

theorem rowCountFor_single_head {v n : String} {row : List String} {p : String}
    (hhead : row.head? = some (pkgLink v p)) :
    rowCountFor v [row] n = if p = n then 1 else 0 := by
  by_cases h : p = n
  · subst h
    simp [rowCountFor, List.countP_cons, hhead]
  · have hne : pkgLink v p ≠ pkgLink v n := fun hc => h (pkgLink_inj hc)
    simp [rowCountFor, List.countP_cons, hhead, hne, h]

theorem processPkg_WF (inp : RunInputs) (bbsO : String → String)
    (archO : String → Option String) (c : Cache) (p : String)
    (hp : p ∉ c.handled) (hor : p ∈ successSet inp ∨ p ∈ failedSet inp)
    (hwf : CacheWF (biocVersion inp) c) :
    CacheWF (biocVersion inp) (processPkg inp bbsO archO c p) := by
  intro name
  have hcount0 : rowCountFor (biocVersion inp) c.succeeded p
      + rowCountFor (biocVersion inp) c.failed p = 0 := by
    have h := hwf p
    rw [rowCountFor_append] at h
    simpa [hp] using h
  have hold : rowCountFor (biocVersion inp) c.succeeded name
      + rowCountFor (biocVersion inp) c.failed name
      = if name ∈ c.handled then 1 else 0 := by
    have h := hwf name
    rwa [rowCountFor_append] at h
  by_cases hs : p ∈ successSet inp
  · have hrow : rowCountFor (biocVersion inp) [builtRow inp bbsO p] name
        = if p = name then 1 else 0 := rowCountFor_single_head rfl
    simp only [processPkg, if_pos hs]
    show rowCountFor (biocVersion inp)
        ((c.succeeded ++ [builtRow inp bbsO p]) ++ c.failed) name
      = if name ∈ setAdd c.handled p then 1 else 0
    rw [rowCountFor_append, rowCountFor_append, hrow]
    by_cases hn : p = name
    · subst hn
      simp only [if_pos rfl, mem_setAdd]
      simp only [hp, false_or]
      omega
    · have hmemiff : (name ∈ setAdd c.handled p) ↔ name ∈ c.handled := by
        rw [mem_setAdd]
        exact or_iff_left (fun h => hn h.symm)
      rw [if_neg hn]
      by_cases hh : name ∈ c.handled
      · simp only [hmemiff.mpr hh, if_pos, hh] at *
        omega
      · have : ¬ name ∈ setAdd c.handled p := fun h => hh (hmemiff.mp h)
        simp only [hh, if_false, this] at *
        omega
  · rcases hor with hs2 | hf
    · exact absurd hs2 hs
    · have hrow : rowCountFor (biocVersion inp) [failedRow inp bbsO archO p] name
          = if p = name then 1 else 0 := rowCountFor_single_head rfl
      simp only [processPkg, if_neg hs, if_pos hf]
      show rowCountFor (biocVersion inp)
          (c.succeeded ++ (c.failed ++ [failedRow inp bbsO archO p])) name
        = if name ∈ setAdd c.handled p then 1 else 0
      rw [rowCountFor_append, rowCountFor_append, hrow]
      by_cases hn : p = name
      · subst hn
        simp only [if_pos rfl, mem_setAdd]
        simp only [hp, false_or]
        omega
      · have hmemiff : (name ∈ setAdd c.handled p) ↔ name ∈ c.handled := by
          rw [mem_setAdd]
          exact or_iff_left (fun h => hn h.symm)
        rw [if_neg hn]
        by_cases hh : name ∈ c.handled
        · simp only [hmemiff.mpr hh, if_pos, hh] at *
          omega
        · have : ¬ name ∈ setAdd c.handled p := fun h => hh (hmemiff.mp h)
          simp only [hh, if_false, this] at *
          omega

theorem processPkg_handled_sup (inp : RunInputs) (bbsO : String → String)
    (archO : String → Option String) (c : Cache) (p q : String)
    (h : q ∈ (processPkg inp bbsO archO c p).handled) :
    q ∈ c.handled ∨ q = p := by
  by_cases hs : p ∈ successSet inp
  · simp only [processPkg, if_pos hs] at h
    exact mem_setAdd.mp h
  · by_cases hf : p ∈ failedSet inp
    · simp only [processPkg, if_neg hs, if_pos hf] at h
      exact mem_setAdd.mp h
    · simp only [processPkg, if_neg hs, if_neg hf] at h
      exact Or.inl h

theorem foldl_processPkg_WF (inp : RunInputs) (bbsO : String → String)
    (archO : String → Option String) :
    ∀ (l : List String) (c : Cache), l.Nodup →
      (∀ p ∈ l, p ∉ c.handled) →
      (∀ p ∈ l, p ∈ successSet inp ∨ p ∈ failedSet inp) →
      CacheWF (biocVersion inp) c →
      CacheWF (biocVersion inp) (l.foldl (processPkg inp bbsO archO) c) := by
  intro l
  induction l with
  | nil => intro c _ _ _ hwf; simpa using hwf
  | cons p ps ih =>
    intro c hnd hout hor hwf
    rw [List.foldl_cons]
    have hpd := List.nodup_cons.mp hnd
    refine ih _ hpd.2 ?_ (fun q hq => hor q (List.mem_cons_of_mem p hq)) ?_
    · intro q hq hqmem
      rcases processPkg_handled_sup inp bbsO archO c p q hqmem with h | rfl
      · exact hout q (List.mem_cons_of_mem p hq) h
      · exact hpd.1 hq
    · exact processPkg_WF inp bbsO archO c p (hout p (List.mem_cons_self p ps))
        (hor p (List.mem_cons_self p ps)) hwf

theorem runPass_WF (inp : RunInputs) (bbsO : String → String)
    (archO : String → Option String) (c0 : Cache)
    (hwf : CacheWF (biocVersion inp) c0) :
    CacheWF (biocVersion inp) (runPass inp bbsO archO c0) := by
  refine foldl_processPkg_WF inp bbsO archO (newPackages inp c0) c0
    (newPackages_nodup inp c0) ?_ ?_ hwf
  · intro p hp
    exact (mem_newPackages.mp hp).2
  · intro p hp
    exact (mem_newPackages.mp hp).1

theorem runPass_covers (inp : RunInputs) (bbsO : String → String)
    (archO : String → Option String) (c0 : Cache) (p : String)
    (hor : p ∈ successSet inp ∨ p ∈ failedSet inp) :
    p ∈ (runPass inp bbsO archO c0).handled := by
  by_cases hh : p ∈ c0.handled
  · exact foldl_processPkg_handled_mono inp bbsO archO _ c0 p hh
  · exact foldl_processPkg_handled_adds inp bbsO archO _ c0 p
      (mem_newPackages.mpr ⟨hor, hh⟩) hor

theorem newPackages_after_runPass (inp : RunInputs) (bbsO : String → String)
    (archO : String → Option String) (c0 : Cache) :
    newPackages inp (runPass inp bbsO archO c0) = [] := by
  have hfil : (successSet inp ++ failedSet inp).filter
      (fun p => !decide (p ∈ (runPass inp bbsO archO c0).handled)) = [] := by
    rw [List.filter_eq_nil_iff]
    intro p hp
    simp only [Bool.not_eq_true', decide_eq_false_iff_not, not_not]
    exact runPass_covers inp bbsO archO c0 p (List.mem_append.mp hp)
  simp [newPackages, hfil, sortStrings_nil]

theorem foldl_congr_pt {α β : Type} (f g : β → α → β) :
    ∀ (l : List α) (b : β), (∀ a ∈ l, ∀ x, f x a = g x a) →
      l.foldl f b = l.foldl g b := by
  intro l
  induction l with
  | nil => intro b _; rfl
  | cons a l ih =>
    intro b h
    rw [List.foldl_cons, List.foldl_cons, h a (List.mem_cons_self a l) b]
    exact ih _ (fun x hx y => h x (List.mem_cons_of_mem a hx) y)

theorem processPkg_congr (inp inp2 : RunInputs) (bbsO : String → String)
    (archO : String → Option String) (p : String)
    (hs : successSet inp2 = successSet inp)
    (hv : biocVersion inp2 = biocVersion inp)
    (hr : inp2.runId = inp.runId)
    (hfl : inp2.failLogs p = inp.failLogs p)
    (hfs : (p ∈ failedSet inp2) ↔ p ∈ failedSet inp) :
    ∀ c, processPkg inp2 bbsO archO c p = processPkg inp bbsO archO c p := by
  intro c
  have hbuilt : builtRow inp2 bbsO p = builtRow inp bbsO p := by
    simp [builtRow, hv, hr]
  have hfailrow : failedRow inp2 bbsO archO p = failedRow inp bbsO archO p := by
    simp [failedRow, hv, hr, hfl]
  by_cases hps : p ∈ successSet inp
  · simp [processPkg, hs, hps, hbuilt]
  · by_cases hpf : p ∈ failedSet inp
    · simp [processPkg, hs, hps, hfs.mpr hpf, hpf, hfailrow]
    · have hpf2 : p ∉ failedSet inp2 := fun h => hpf (hfs.mp h)
      simp [processPkg, hs, hps, hpf, hpf2]

theorem runPass_congr (inp inp2 : RunInputs) (bbsO : String → String)
    (archO : String → Option String) (c0 : Cache)
    (hs : successSet inp2 = successSet inp)
    (hv : biocVersion inp2 = biocVersion inp)
    (hr : inp2.runId = inp.runId)
    (hnew : newPackages inp2 c0 = newPackages inp c0)
    (hfl : ∀ p ∈ newPackages inp c0, inp2.failLogs p = inp.failLogs p)
    (hfs : ∀ p ∈ newPackages inp c0, ((p ∈ failedSet inp2) ↔ p ∈ failedSet inp)) :
    runPass inp2 bbsO archO c0 = runPass inp bbsO archO c0 := by
  rw [runPass, runPass, hnew]
  exact foldl_congr_pt _ _ _ c0 (fun p hp x =>
    processPkg_congr inp inp2 bbsO archO p hs hv hr (hfl p hp) (hfs p hp) x)

theorem mainPass_congr (inp inp2 : RunInputs) (bbsO : String → String)
    (archO : String → Option String) (c0 : Cache)
    (hpk : inp2.packages = inp.packages)
    (hs : successSet inp2 = successSet inp)
    (hv : biocVersion inp2 = biocVersion inp)
    (hr : inp2.runId = inp.runId)
    (hnew : newPackages inp2 c0 = newPackages inp c0)
    (hfl : ∀ p ∈ newPackages inp c0, inp2.failLogs p = inp.failLogs p)
    (hfs : ∀ p ∈ newPackages inp c0, ((p ∈ failedSet inp2) ↔ p ∈ failedSet inp)) :
    mainPass inp2 bbsO archO c0 = mainPass inp bbsO archO c0 := by
  have hrp := runPass_congr inp inp2 bbsO archO c0 hs hv hr hnew hfl hfs
  simp [mainPass, hrp, unprocTable, hpk, hv]

theorem mem_failedSet {inp : RunInputs} {p : String} :
    p ∈ failedSet inp ↔ p ∈ inp.packages ∧ (inp.failLogs p).isSome := by
  simp [failedSet, List.mem_filter]

theorem newPackages_update_log (inp : RunInputs) (c0 : Cache) (name : String)
    (g : Option String) (hname : name ∈ c0.handled) :
    newPackages { inp with failLogs := fun p => if p = name then g else inp.failLogs p } c0
      = newPackages inp c0 := by
  have hfe : (failedSet { inp with failLogs := fun p => if p = name then g else inp.failLogs p }).filter
      (fun p => !decide (p ∈ c0.handled))
    = (failedSet inp).filter (fun p => !decide (p ∈ c0.handled)) := by
    simp only [failedSet]
    rw [List.filter_filter, List.filter_filter]
    apply List.filter_congr
    intro a _
    by_cases han : a = name
    · subst han
      simp [hname]
    · simp [han]
  simp only [newPackages, List.filter_append]
  exact congrArg
    (fun l => sortStrings (((successSet inp).filter (fun p => !decide (p ∈ c0.handled)) ++ l).dedup))
    hfe

theorem count_filter_of_pos (a : String) (p : String → Bool) (l : List String)
    (h : p a = true) : List.count a (l.filter p) = List.count a l :=
  List.count_filter h

theorem rowCountFor_map_head (v : String) (f : String → List String)
    (hf : ∀ p, (f p).head? = some (pkgLink v p)) (l : List String) (pkg : String) :
    rowCountFor v (l.map f) pkg = List.count pkg l := by
  rw [rowCountFor, List.countP_map, List.count_eq_countP]
  apply List.countP_congr
  intro a _
  simp only [Function.comp_apply, hf a]
  by_cases h : a = pkg
  · subst h; simp
  · have hne : pkgLink v a ≠ pkgLink v pkg := fun hc => h (pkgLink_inj hc)
    simp [h, hne]

theorem retryLoop_requestCount_le (svc : Nat → HttpResult) :
    ∀ (rem st : Nat) (b : Option String) (reqs : Nat),
      requestCount (retryLoop svc st b rem reqs) ≤ reqs + rem := by
  intro rem
  induction rem with
  | zero =>
    intro st b reqs
    by_cases h : st = 200
    · simp [retryLoop, h, requestCount]
    · simp [retryLoop, h, requestCount]
  | succ r ih =>
    intro st b reqs
    by_cases h : st = 200
    · simp [retryLoop, h, requestCount]
    · simp only [retryLoop, h, if_false]
      cases hc : svc reqs with
      | exn =>
        simp only [requestCount]
        omega
      | ok st2 b2 =>
        calc requestCount (retryLoop svc st2 b2 r (reqs + 1)) ≤ (reqs + 1) + r := ih st2 b2 (reqs + 1)
          _ = reqs + (r + 1) := by omega

theorem check_failure_reason_eq (arch : String → Option String) (log : String) :
    check_failure_reason arch log
      = if ruleReasons arch log = []
        then (match firstKeywordLine log with
              | some line => [line]
              | none => ["Build failed with unknown error"])
        else ruleReasons arch log := rfl

theorem ruleReasons_congr {f g : String → Option String} (log : String)
    (h : ∀ s ∈ cranCallsOfLog log, f s = g s) :
    ruleReasons f log = ruleReasons g log := by
  apply List.flatMap_congr
  intro p hp
  apply List.flatMap_congr
  intro m hm
  by_cases hdep : containsDepOrPkg p.2 = true
  · have hmem : pyStrip m ∈ cranCallsOfLog log := by
      rw [cranCallsOfLog, List.mem_flatMap]
      refine ⟨p, hp, ?_⟩
      rw [List.mem_flatMap]
      exact ⟨m, hm, by simp [hdep]⟩
    simp only [hdep, if_true, h (pyStrip m) hmem]
  · simp [hdep]

/-! ## Claim theorems -/

/-- Claim C1: for every input log text, `check_failure_reason` returns a
non-empty list; when no pattern rule matches it returns the first log line
(stripped) containing one of the fixed keywords, and when no line contains
a keyword it returns exactly `["Build failed with unknown error"]`.  The
embedding is a total function, so the source's guarantee of never raising
on text input is reflected by totality. -/
theorem check_failure_reason_total_fallback (arch : String → Option String)
    (log : String) :
    check_failure_reason arch log ≠ [] ∧
    ((∀ p ∈ patterns, findall p.1 log = []) →
      check_failure_reason arch log
        = match firstKeywordLine log with
          | some line => [line]
          | none => ["Build failed with unknown error"]) := by
  constructor
  · rw [check_failure_reason_eq]
    split
    · split <;> simp
    · rename_i h
      exact h
  · intro hall
    have hnil : ruleReasons arch log = [] := by
      rw [ruleReasons, List.flatMap_eq_nil_iff]
      intro p hp
      rw [hall p hp]
      rfl
    rw [check_failure_reason_eq, hnil]
    rfl

/-- Witness for C1 at a concrete log with no rule match: the keyword line
is returned; and at a keyword-free log: the sentinel is returned. -/
theorem check_failure_reason_total_fallback_witness :
    check_failure_reason (fun _ => none) "Error: disk full" = ["Error: disk full"] ∧
    check_failure_reason (fun _ => none) "garbage\nnothing here"
      = ["Build failed with unknown error"] := by
  constructor
  · have h := (check_failure_reason_total_fallback (fun _ => none) "Error: disk full").2
      (by decide)
    rw [h]
    decide
  · have h := (check_failure_reason_total_fallback (fun _ => none) "garbage\nnothing here").2
      (by decide)
    rw [h]
    decide

/-- Counterexample to Claim C3 as stated: with a service that always
answers a non-success status, both lookups issue 7 HTTP requests (the
retry loop `while retries <= 5` runs six times after the initial request),
not at most 6. -/
theorem lookup_seven_requests_cex :
    cranRequestCount (fun _ => HttpResult.ok 500 none) = 7 ∧
    ¬ cranRequestCount (fun _ => HttpResult.ok 500 none) ≤ 6 ∧
    bbsRequestCount (fun _ => HttpResult.ok 500 none) = 7 ∧
    ¬ bbsRequestCount (fun _ => HttpResult.ok 500 none) ≤ 6 := by decide

/-- Claim C3 (amended): each lookup issues at most 7 requests — one
initial request plus at most 6 retries, because the loop guard
`retries <= 5` is tested before the increment — and the embedding of both
lookups is total (no exception escapes: every modelled failure returns the
sentinel). -/
theorem lookup_request_bound (svc svc2 : Nat → HttpResult) :
    cranRequestCount svc ≤ 7 ∧ bbsRequestCount svc2 ≤ 7 := by
  have hb : ∀ s : Nat → HttpResult, requestCount (fetchWithRetries s) ≤ 7 := by
    intro s
    rw [fetchWithRetries]
    cases s 0 with
    | exn => simp [requestCount]
    | ok st b =>
      show requestCount (retryLoop s st b 6 1) ≤ 7
      have := retryLoop_requestCount_le s 6 st b 1
      omega
  exact ⟨hb svc, hb svc2⟩

/-- Claim C4: a second pass over the same artifacts starting from the
cache the first pass saved (whatever the resolver oracles answer in the
second pass) finds no new packages, changes nothing, and saves a cache
identical to the first pass's cache; the three tables also coincide. -/
theorem aggregator_idempotent (inp : RunInputs) (bbsO bbsO2 : String → String)
    (archO archO2 : String → Option String) (c0 : Cache) :
    newPackages inp ((mainPass inp bbsO archO c0).cache) = [] ∧
    runPass inp bbsO2 archO2 ((mainPass inp bbsO archO c0).cache)
      = (mainPass inp bbsO archO c0).cache ∧
    mainPass inp bbsO2 archO2 ((mainPass inp bbsO archO c0).cache)
      = mainPass inp bbsO archO c0 := by
  have hnew := newPackages_after_runPass inp bbsO archO c0
  have hrp : runPass inp bbsO2 archO2 (runPass inp bbsO archO c0)
      = runPass inp bbsO archO c0 := by
    conv_lhs => rw [runPass]
    rw [hnew]
    rfl
  refine ⟨hnew, hrp, ?_⟩
  show mainPass inp bbsO2 archO2 (runPass inp bbsO archO c0) = mainPass inp bbsO archO c0
  simp [mainPass, hrp]

/-- Claim C9: when the success-list artifact is absent the aggregator's
successful set is empty, and the whole pass behaves exactly as with an
empty success list (the embedding is total, so the absence never aborts
the run). -/
theorem missing_success_list_empty (inp : RunInputs) (bbsO : String → String)
    (archO : String → Option String) (c0 : Cache) :
    successSet { inp with successLines := none } = [] ∧
    mainPass { inp with successLines := none } bbsO archO c0
      = mainPass { inp with successLines := some [] } bbsO archO c0 :=
  ⟨rfl, rfl⟩

/-- Claim C6: whatever the external service does, both lookups return
normally (they are total functions of the service behavior), and degrade
to their sentinels: `check_cran_archived` returns `none` whenever no
archival annotation can be produced (error response after retries, caught
exception, undecodable body, or missing marker), and `get_bbs_status`
returns `"Not Found"` whenever no status link can be produced (including
when no line starts with `Status:`). -/
theorem resolver_failure_sentinels (svc svc2 : Nat → HttpResult)
    (pkg bioc_version : String) :
    (cranAnnotatable svc = false → check_cran_archived svc pkg = none) ∧
    (bbsStatusFindable svc2 = false → get_bbs_status svc2 pkg bioc_version = "Not Found") := by
  constructor
  · intro h
    unfold cranAnnotatable at h
    unfold check_cran_archived
    cases hf : fetchWithRetries svc with
    | caught n => rfl
    | response st body n =>
      rw [hf] at h
      by_cases h200 : st = 200
      · subst h200
        cases body with
        | none => simp
        | some b =>
          simp only [decide_eq_true_eq, Bool.and_eq_false_iff, Bool.or_eq_false_iff] at h
          rcases h with h | ⟨ha, hr⟩
          · simp at h
          · simp only [if_pos rfl]
            unfold cranScan
            unfold strContains at ha hr
            cases hfa : findSubIdx b.data "Archived on".data with
            | some i => rw [hfa] at ha; simp at ha
            | none =>
              cases hfr : findSubIdx b.data "Removed on".data with
              | some i => rw [hfr] at hr; simp at hr
              | none => simp [hfa, hfr]
      · simp [h200]
  · intro h
    unfold bbsStatusFindable at h
    unfold get_bbs_status
    cases hf : fetchWithRetries svc2 with
    | caught n => rfl
    | response st body n =>
      rw [hf] at h
      by_cases h200 : st = 200
      · subst h200
        cases body with
        | none => simp
        | some b =>
          simp only [decide_eq_true_eq, Bool.and_eq_false_iff] at h
          rcases h with h | h
          · simp at h
          · cases hfind : (splitOnChar '\n' b).find?
                (fun line => strStartsWith line "Status:") with
            | some line => rw [hfind] at h; simp at h
            | none => simp [hfind]
      · simp [h200]

/-- Witness for C6: a service that always raises makes both helper
predicates false, and both lookups return their sentinels. -/
theorem resolver_failure_sentinels_witness :
    check_cran_archived (fun _ => HttpResult.exn) "pkgA" = none ∧
    get_bbs_status (fun _ => HttpResult.exn) "pkgA" "3.19" = "Not Found" :=
  ⟨(resolver_failure_sentinels (fun _ => HttpResult.exn) (fun _ => HttpResult.exn)
      "pkgA" "3.19").1 (by decide),
   (resolver_failure_sentinels (fun _ => HttpResult.exn) (fun _ => HttpResult.exn)
      "pkgA" "3.19").2 (by decide)⟩

/-- Claim C8: the classifier is deterministic — two invocations on the
same log text whose archival lookups answer the same on every name the
classifier queries for that log return the same ordered reason list. -/
theorem classifier_deterministic (f g : String → Option String) (log : String)
    (h : ∀ s ∈ cranCallsOfLog log, f s = g s) :
    check_failure_reason f log = check_failure_reason g log := by
  rw [check_failure_reason_eq, check_failure_reason_eq,
    ruleReasons_congr log h]

/-- Witness for C8: two different oracles agreeing on the single queried
name `foo` yield the same reason list. -/
theorem classifier_deterministic_witness :
    check_failure_reason (fun _ => some "[note]") "there is no package called \"foo\""
      = check_failure_reason (fun s => if s = "foo" then some "[note]" else none)
          "there is no package called \"foo\"" :=
  classifier_deterministic _ _ _ (by decide)

/-- Claim C7: the classifier evaluates all nine rules on every input with
no short-circuit — whenever any rule matches, the result is exactly the
concatenation, in rule-list order, of each rule's matches in text order
(`ruleReasons`), with an archival annotation appended immediately after a
dependency/package reason when the lookup reports one and nothing added
otherwise.  The concrete conjuncts exercise the scenario from the spec:
matching is case-insensitive, `findall` lists matches in text order, and a
later rule's match is reported after an earlier rule's match even when it
occurs earlier in the text. -/
theorem classifier_rule_order (arch : String → Option String) (log : String) :
    patterns.length = 9 ∧
    ((∃ p ∈ patterns, findall p.1 log ≠ []) →
      check_failure_reason arch log = ruleReasons arch log) ∧
    check_failure_reason (fun n => if n = "foo" then some "NOTE" else none)
      "there is no package called \"foo\"" = ["Missing R dependency: foo", "NOTE"] ∧
    check_failure_reason (fun _ => none) "there is no package called \"foo\""
      = ["Missing R dependency: foo"] ∧
    check_failure_reason (fun _ => none) "THERE IS NO PACKAGE CALLED \"FOO\""
      = ["Missing R dependency: FOO"] ∧
    findall pat1 "there is no package called \"a\" and there is no package called \"b\""
      = ["a", "b"] ∧
    check_failure_reason (fun _ => none) "configure: error: x\nthere is no package called \"y\""
      = ["Missing R dependency: y", "Configure error:  x"] := by
  refine ⟨rfl, ?_, by decide, by decide, by decide, by decide, by decide⟩
  rintro ⟨p, hp, hne⟩
  rw [check_failure_reason_eq]
  have hrr : ruleReasons arch log ≠ [] := by
    rw [Ne, ruleReasons, List.flatMap_eq_nil_iff]
    intro hall
    rcases List.exists_mem_of_ne_nil _ hne with ⟨m, hm⟩
    have hinner := hall p hp
    rw [List.flatMap_eq_nil_iff] at hinner
    have := hinner m hm
    by_cases hdep : containsDepOrPkg p.2 = true
    · simp only [hdep, if_true] at this
      cases harch : arch (pyStrip m) with
      | none => rw [harch] at this; simp at this
      | some a => rw [harch] at this; simp at this
    · simp [hdep] at this
  rw [if_neg hrr]

/-- Witness for C7: the structural part applied at the scenario log, whose
first rule has a match. -/
theorem classifier_rule_order_witness :
    check_failure_reason (fun _ => none) "there is no package called \"zzz\""
      = ruleReasons (fun _ => none) "there is no package called \"zzz\"" :=
  (classifier_rule_order (fun _ => none) "there is no package called \"zzz\"").2.1
    ⟨(pat1, "Missing R dependency"), by decide, by decide⟩

/-- Counterexample to Claim C2 as stated: with `foo` in the handled set at
load time and an unhandled package `bar` whose failure log names `foo` as a
missing dependency, the pass does invoke `check_cran_archived` for the
name `foo` (inside the classifier run on `bar`'s log). -/
theorem handled_cran_lookup_cex :
    "foo" ∈ cexC0.handled ∧ "foo" ∈ cranCalledNames cexInp cexC0 := by decide

/-- Claim C2 (amended): for a name in the handled set at load time, the
pass never classifies that package's log (`check_failure_reason`) and
never calls `get_bbs_status` for it, its previously cached rows survive
unchanged (the pass only appends), and the whole pass result is unchanged
by any modification of that package's on-disk failure log.
`check_cran_archived` can still be invoked for that name when it occurs as
a captured dependency excerpt in an unhandled package's log. -/
theorem handled_package_frame (inp : RunInputs) (bbsO : String → String)
    (archO : String → Option String) (c0 : Cache) (name : String)
    (h : name ∈ c0.handled) :
    name ∉ classifiedPkgs inp c0 ∧
    name ∉ bbsCalledPkgs inp c0 ∧
    (∃ t, (runPass inp bbsO archO c0).succeeded = c0.succeeded ++ t) ∧
    (∃ t, (runPass inp bbsO archO c0).failed = c0.failed ++ t) ∧
    (∀ g, mainPass { inp with failLogs := fun p => if p = name then g else inp.failLogs p }
        bbsO archO c0 = mainPass inp bbsO archO c0) := by
  have hnotnew : name ∉ newPackages inp c0 := fun hmem =>
    (mem_newPackages.mp hmem).2 h
  refine ⟨?_, ?_, ?_, ?_, ?_⟩
  · intro hmem
    exact hnotnew (List.mem_filter.mp hmem).1
  · intro hmem
    exact hnotnew (List.mem_filter.mp hmem).1
  · exact ⟨_, foldl_processPkg_succeeded inp bbsO archO (newPackages inp c0) c0⟩
  · exact ⟨_, foldl_processPkg_failed inp bbsO archO (newPackages inp c0) c0⟩
  · intro g
    refine mainPass_congr inp _ bbsO archO c0 rfl rfl rfl rfl
      (newPackages_update_log inp c0 name g h) ?_ ?_
    · intro p hp
      have hpne : p ≠ name := fun hc => (mem_newPackages.mp hp).2 (hc ▸ h)
      simp [hpne]
    · intro p hp
      have hpne : p ≠ name := fun hc => (mem_newPackages.mp hp).2 (hc ▸ h)
      rw [mem_failedSet, mem_failedSet]
      simp [hpne]

/-- Witness for C2 (amended) at the concrete counterexample run: `foo` is
neither classified nor status-checked, the cached rows survive, and
replacing `foo`'s log leaves the pass result unchanged. -/
theorem handled_package_frame_witness :
    "foo" ∉ classifiedPkgs cexInp cexC0 ∧
    "foo" ∉ bbsCalledPkgs cexInp cexC0 ∧
    mainPass { cexInp with
        failLogs := fun p => if p = "foo" then some "Error: changed" else cexInp.failLogs p }
      wBbs wArch cexC0 = mainPass cexInp wBbs wArch cexC0 := by
  have h := handled_package_frame cexInp wBbs wArch cexC0 "foo" (by decide)
  exact ⟨h.1, h.2.1, h.2.2.2.2 (some "Error: changed")⟩

/-- Claim C5: after one pass (loaded from a well-formed cache, manifest
free of duplicates), every manifest package appears in exactly one of the
three output tables: a name in the final handled set has exactly one row
across succeeded/failed and none in unprocessed; a name not handled has
exactly one row in unprocessed and none in succeeded/failed. -/
theorem manifest_partition (inp : RunInputs) (bbsO : String → String)
    (archO : String → Option String) (c0 : Cache)
    (hnd : inp.packages.Nodup) (hwf : CacheWF (biocVersion inp) c0)
    (pkg : String) (hp : pkg ∈ inp.packages) :
    (pkg ∈ (mainPass inp bbsO archO c0).cache.handled →
      rowCountFor (biocVersion inp)
        ((mainPass inp bbsO archO c0).succeededTable
          ++ (mainPass inp bbsO archO c0).failedTable) pkg = 1 ∧
      rowCountFor (biocVersion inp) (mainPass inp bbsO archO c0).unprocessedTable pkg = 0) ∧
    (pkg ∉ (mainPass inp bbsO archO c0).cache.handled →
      rowCountFor (biocVersion inp) (mainPass inp bbsO archO c0).unprocessedTable pkg = 1 ∧
      rowCountFor (biocVersion inp)
        ((mainPass inp bbsO archO c0).succeededTable
          ++ (mainPass inp bbsO archO c0).failedTable) pkg = 0) := by
  have hfin := runPass_WF inp bbsO archO c0 hwf
  have hmain := hfin pkg
  have hcache : (mainPass inp bbsO archO c0).cache = runPass inp bbsO archO c0 := rfl
  have hsucc : (mainPass inp bbsO archO c0).succeededTable
      = (runPass inp bbsO archO c0).succeeded := rfl
  have hfail : (mainPass inp bbsO archO c0).failedTable
      = (runPass inp bbsO archO c0).failed := rfl
  have hut : (mainPass inp bbsO archO c0).unprocessedTable
      = unprocTable inp (runPass inp bbsO archO c0) := rfl
  have hunproc : rowCountFor (biocVersion inp)
      (unprocTable inp (runPass inp bbsO archO c0)) pkg
      = List.count pkg ((sortStrings inp.packages).filter
          (fun p => !decide (p ∈ (runPass inp bbsO archO c0).handled))) := by
    exact rowCountFor_map_head (biocVersion inp)
      (fun p => [pkgLink (biocVersion inp) p, "Unprocessed"]) (fun p => rfl) _ pkg
  constructor
  · intro hh
    rw [hcache] at hh
    constructor
    · rw [hsucc, hfail, hmain, if_pos hh]
    · rw [hut, hunproc]
      rw [List.count_eq_zero]
      intro hmem
      have := (List.mem_filter.mp hmem).2
      simp [hh] at this
  · intro hh
    rw [hcache] at hh
    constructor
    · rw [hut, hunproc]
      have hpred : (!decide (pkg ∈ (runPass inp bbsO archO c0).handled)) = true := by
        simp [hh]
      rw [count_filter_of_pos pkg _ _ hpred, sortStrings_count]
      exact List.count_eq_one_of_mem hnd hp
    · rw [hsucc, hfail, hmain, if_neg hh]

/-- Witness for C5 at a concrete two-package run from the empty cache:
`alpha` is handled (one row among succeeded/failed, none unprocessed). -/
theorem manifest_partition_witness :
    rowCountFor (biocVersion wInp)
      ((mainPass wInp wBbs wArch emptyCache).succeededTable
        ++ (mainPass wInp wBbs wArch emptyCache).failedTable) "alpha" = 1 ∧
    rowCountFor (biocVersion wInp)
      (mainPass wInp wBbs wArch emptyCache).unprocessedTable "alpha" = 0 :=
  (manifest_partition wInp wBbs wArch emptyCache (by decide)
    (fun name => by simp [rowCountFor, emptyCache]) "alpha" (by decide)).1 (by decide)

/-- Claim C10: an unhandled package on both the success list and with a
failure log on disk is routed through the success branch (tested first):
the pass appends exactly one row for it — its Built row — to the succeeded
list, appends no failed row for it, and never reads or classifies its
failure log. -/
theorem success_branch_priority (inp : RunInputs) (bbsO : String → String)
    (archO : String → Option String) (c0 : Cache) (pkg : String)
    (hs : pkg ∈ successSet inp) (_hf : (inp.failLogs pkg).isSome = true)
    (hh : pkg ∉ c0.handled) :
    pkg ∉ classifiedPkgs inp c0 ∧
    builtRow inp bbsO pkg ∈ (runPass inp bbsO archO c0).succeeded ∧
    rowCountFor (biocVersion inp) (runPass inp bbsO archO c0).succeeded pkg
      = rowCountFor (biocVersion inp) c0.succeeded pkg + 1 ∧
    rowCountFor (biocVersion inp) (runPass inp bbsO archO c0).failed pkg
      = rowCountFor (biocVersion inp) c0.failed pkg := by
  have hmem : pkg ∈ newPackages inp c0 := mem_newPackages.mpr ⟨Or.inl hs, hh⟩
  refine ⟨?_, ?_, ?_, ?_⟩
  · intro hc
    have := (List.mem_filter.mp hc).2
    simp [hs] at this
  · rw [runPass, foldl_processPkg_succeeded]
    refine List.mem_append_right _ ?_
    exact List.mem_map.mpr ⟨pkg, List.mem_filter.mpr ⟨hmem, by simp [hs]⟩, rfl⟩
  · rw [runPass, foldl_processPkg_succeeded, rowCountFor_append]
    have hone : rowCountFor (biocVersion inp)
        (((newPackages inp c0).filter (fun p => decide (p ∈ successSet inp))).map
          (builtRow inp bbsO)) pkg = 1 := by
      rw [rowCountFor_map_head (biocVersion inp) (builtRow inp bbsO) (fun p => rfl)]
      rw [count_filter_of_pos pkg _ _ (by simp [hs]), newPackages_count_one hmem]
    omega
  · rw [runPass, foldl_processPkg_failed, rowCountFor_append]
    have hzero : rowCountFor (biocVersion inp)
        (((newPackages inp c0).filter (fun p =>
            !decide (p ∈ successSet inp) && decide (p ∈ failedSet inp))).map
          (failedRow inp bbsO archO)) pkg = 0 := by
      rw [rowCountFor_map_head (biocVersion inp) (failedRow inp bbsO archO) (fun p => rfl)]
      rw [List.count_eq_zero]
      intro hmem2
      have := (List.mem_filter.mp hmem2).2
      simp [hs] at this
    omega

/-- Witness for C10 at the concrete run whose only package `dual` is both
in the success list and has a failure log. -/
theorem success_branch_priority_witness :
    "dual" ∉ classifiedPkgs wInpDual emptyCache ∧
    builtRow wInpDual wBbs "dual" ∈ (runPass wInpDual wBbs wArch emptyCache).succeeded ∧
    rowCountFor (biocVersion wInpDual) (runPass wInpDual wBbs wArch emptyCache).succeeded "dual"
      = rowCountFor (biocVersion wInpDual) emptyCache.succeeded "dual" + 1 ∧
    rowCountFor (biocVersion wInpDual) (runPass wInpDual wBbs wArch emptyCache).failed "dual"
      = rowCountFor (biocVersion wInpDual) emptyCache.failed "dual" :=
  success_branch_priority wInpDual wBbs wArch emptyCache "dual"
    (by decide) (by decide) (by decide)
